import Mathlib

/-!
Verification of the cilkhilite pygments plugin: a shallow embedding of
`cilkhilite/cilklexer.py`, `cilkhilite/cilkformatter.py` and
`cilkhilite/chrtfformatter.py`.

Texts are modelled as `List Char`.  Python's `str.replace` with a
single-character pattern is `replaceChar`.  Token categories are the
hierarchical pygments paths, modelled as `List String`; the pygments
subtype test `ttype in T` is `T.isPrefixOf ttype`, the identity test
`ttype is T` is path equality, and `ttype.parent` is `List.dropLast`.
The style tables themselves (the pygments style and `STANDARD_TYPES`)
are static data external to this repository, so they enter the
formatter models as function parameters; everything the formatters do
with them is modelled from the source.
-/

namespace CilkHilite

/-- Hierarchical token category path, e.g. `Comment.Invisible.Begin`
is `["Comment", "Invisible", "Begin"]`.  The root `Token` is `[]`. -/
abbrev TType := List String

def tokComment : TType := ["Comment"]
def tokCommentInvisible : TType := ["Comment", "Invisible"]
def tokCIBegin : TType := ["Comment", "Invisible", "Begin"]
def tokCIEnd : TType := ["Comment", "Invisible", "End"]
def tokPureTeX : TType := ["Comment", "PureTeX"]
def tokText : TType := ["Text"]
def tokKeywordType : TType := ["Keyword", "Type"]
def tokKeywordCustom : TType := ["Keyword", "Custom"]
def tokName : TType := ["Name"]
def tokNameVariable : TType := ["Name", "Variable"]
def tokNameFunction : TType := ["Name", "Function"]
def tokNameNamespace : TType := ["Name", "Namespace"]

/-- Python `text.replace(c, rep)` for a one-character pattern `c`:
every occurrence of `c` is replaced by `rep`. -/
def replaceChar (c : Char) (rep : List Char) : List Char → List Char
  | [] => []
  | x :: xs => (if x = c then rep else [x]) ++ replaceChar c rep xs

/-- The replacement text `\<cp>Z<code>{}` used by `escape_tex`
(cilkformatter.py lines 27-45). -/
def texRep (cp : List Char) (code : List Char) : List Char :=
  '\\' :: cp ++ 'Z' :: code ++ ['{', '}']

/-- `escape_tex` from cilkformatter.py lines 27-45: the chain of
`str.replace` calls, in source order (innermost first), using the
`\x00`/`\x01`/`\x02` control characters as placeholders for
backslash and braces. -/
def escapeTex (cp : List Char) (text : List Char) : List Char :=
  replaceChar '~' (texRep cp ['t', 'i'])
  (replaceChar '"' (texRep cp ['d', 'q'])
  (replaceChar '\'' (texRep cp ['s', 'q'])
  (replaceChar '-' (texRep cp ['h', 'y'])
  (replaceChar '$' (texRep cp ['d', 'l'])
  (replaceChar '%' (texRep cp ['p', 'c'])
  (replaceChar '#' (texRep cp ['s', 'h'])
  (replaceChar '>' (texRep cp ['g', 't'])
  (replaceChar '<' (texRep cp ['l', 't'])
  (replaceChar '&' (texRep cp ['a', 'm'])
  (replaceChar '_' (texRep cp ['u', 's'])
  (replaceChar '^' (texRep cp ['c', 'a'])
  (replaceChar '\x02' (texRep cp ['c', 'b'])
  (replaceChar '\x01' (texRep cp ['o', 'b'])
  (replaceChar '\x00' (texRep cp ['b', 's'])
  (replaceChar '}' ['\x02']
  (replaceChar '{' ['\x01']
  (replaceChar '\\' ['\x00'] text)))))))))))))))))

/-- The default `commandprefix` of the LaTeX formatter (`'PY'`). -/
def pyCp : List Char := ['P', 'Y']

/-- The characters handled by the `escape_tex` table: backslash, the
braces and `^ _ & < > # % $ - ' " ~`. -/
def texSpecials : List Char :=
  ['\\', '{', '}', '^', '_', '&', '<', '>', '#', '%', '$', '-', '\'', '"', '~']

/-- The characters handled by the RTF `_escape` table: backslash and
the braces. -/
def rtfSpecials : List Char := ['\\', '{', '}']

/-- The literal character denoted by the LaTeX macro `\PYZ<a><b>{}`,
read off the `\def\PYZxx{\char...}` table of `STYLE_TEMPLATE`
(cilkformatter.py lines 117-131). -/
def texUnescChar (a b : Char) : List Char :=
  if a = 'b' && b = 's' then ['\\']
  else if a = 'o' && b = 'b' then ['{']
  else if a = 'c' && b = 'b' then ['}']
  else if a = 'c' && b = 'a' then ['^']
  else if a = 'u' && b = 's' then ['_']
  else if a = 'a' && b = 'm' then ['&']
  else if a = 'l' && b = 't' then ['<']
  else if a = 'g' && b = 't' then ['>']
  else if a = 's' && b = 'h' then ['#']
  else if a = 'p' && b = 'c' then ['%']
  else if a = 'd' && b = 'l' then ['$']
  else if a = 'h' && b = 'y' then ['-']
  else if a = 's' && b = 'q' then ['\'']
  else if a = 'd' && b = 'q' then ['"']
  else if a = 't' && b = 'i' then ['~']
  else []

/-- LaTeX literal-character unescaping for the default command prefix:
each `\PYZxx{}` macro invocation denotes the character its definition
prints; everything else stands for itself. -/
def decodeTex : List Char → List Char
  | '\\' :: 'P' :: 'Y' :: 'Z' :: a :: b :: '{' :: '}' :: rest =>
      texUnescChar a b ++ decodeTex rest
  | c :: rest => c :: decodeTex rest
  | [] => []

/-- `CHRtfFormatter._escape` (chrtfformatter.py lines 91-94): three
`str.replace` calls, backslash first, then each brace. -/
def rtfEscape (text : List Char) : List Char :=
  replaceChar '}' ['\\', '}']
  (replaceChar '{' ['\\', '{']
  (replaceChar '\\' ['\\', '\\'] text))

/-- RTF literal-character unescaping: a backslash escapes the
following character, which stands for itself. -/
def decodeRtf : List Char → List Char
  | '\\' :: c :: rest => c :: decodeRtf rest
  | c :: rest => c :: decodeRtf rest
  | [] => []

/-- The characters of Python's `\s` class (and of `str.strip`):
space, tab, newline, carriage return, form feed, vertical tab. -/
def pyWs (c : Char) : Bool :=
  c = ' ' || c = '\t' || c = '\n' || c = '\r' || c = '\x0c' || c = '\x0b'

/-- The horizontal-whitespace class `[ \t\f\v]` used by the
formatters' reindentation regexes (newline deliberately excluded). -/
def hws (c : Char) : Bool :=
  c = ' ' || c = '\t' || c = '\x0c' || c = '\x0b'

/-- Python `str.strip()`: remove leading and trailing whitespace. -/
def pyStrip (s : List Char) : List Char :=
  ((s.dropWhile pyWs).reverse.dropWhile pyWs).reverse

/-- Python `str.split(sep)` for a one-character separator: split at
every occurrence, keeping empty fields (the result is never empty). -/
def splitCh (sep : Char) : List Char → List (List Char)
  | [] => [[]]
  | c :: rest =>
      if c = sep then [] :: splitCh sep rest
      else
        match splitCh sep rest with
        | [] => [[c]]
        | l :: ls => (c :: l) :: ls

/-!
The dynamic identifier classifier (cilklexer.py).

`CilkLexer._custom_types` and `CilkLexer._custom_keywords`
(cilklexer.py lines 52-53) are *class* attributes: they are created
once when the class object is built, and the callbacks mutate them
through `lexer._custom_types.append(...)`, which resolves to the
class-level list for every instance.  The model therefore carries the
pair of lists as one value, `cilkClassInit` is its state at class
creation, and `newInstance` is the effect of constructing another
lexer instance on that shared value: none at all.
-/

/-- The shared classifier state: the `_custom_types` list paired with
the `_custom_keywords` list. -/
abbrev ClassifierState := List (List Char) × List (List Char)

/-- The class-attribute initialisers `_custom_types = []`,
`_custom_keywords = []` (cilklexer.py lines 52-53), run once at class
creation. -/
def cilkClassInit : ClassifierState := ([], [])

/-- Constructing a new `CilkLexer` instance: the class-level lists are
untouched (no `__init__` resets them), and attribute lookup on the
instance aliases them, so the state carries over unchanged. -/
def newInstance (shared : ClassifierState) : ClassifierState := shared

/-- The registration loop shared by `customtypes_callback` and
`customkeywords_callback` (cilklexer.py lines 55-70): split the
payload on single spaces, and append each stripped, non-empty name
that is not already present. -/
def registerNames (cur : List (List Char)) (listText : List Char) : List (List Char) :=
  (splitCh ' ' (pyStrip listText)).foldl
    (fun acc w =>
      let t := pyStrip w
      if t ≠ [] ∧ t ∉ acc then acc ++ [t] else acc)
    cur

/-- `variable_callback` (cilklexer.py lines 84-92): custom types
first, then custom keywords, else `Name.Variable`. -/
def variable_callback (types kws : List (List Char)) (name : List Char) :
    TType × List Char :=
  if pyStrip name ∈ types then (tokKeywordType, name)
  else if pyStrip name ∈ kws then (tokKeywordCustom, name)
  else (tokNameVariable, name)

/-- `function_callback` (cilklexer.py lines 94-102): as
`variable_callback` but defaulting to `Name.Function`. -/
def function_callback (types kws : List (List Char)) (name : List Char) :
    TType × List Char :=
  if pyStrip name ∈ types then (tokKeywordType, name)
  else if pyStrip name ∈ kws then (tokKeywordCustom, name)
  else (tokNameFunction, name)

/-- `checkcustom_callback` (cilklexer.py lines 104-111): as
`variable_callback` but defaulting to plain `Name`. -/
def checkcustom_callback (types kws : List (List Char)) (name : List Char) :
    TType × List Char :=
  if pyStrip name ∈ types then (tokKeywordType, name)
  else if pyStrip name ∈ kws then (tokKeywordCustom, name)
  else (tokName, name)

/-- `checknamespace_callback` (cilklexer.py lines 131-138): as
`variable_callback` but defaulting to `Name.Namespace`. -/
def checknamespace_callback (types kws : List (List Char)) (name : List Char) :
    TType × List Char :=
  if pyStrip name ∈ types then (tokKeywordType, name)
  else if pyStrip name ∈ kws then (tokKeywordCustom, name)
  else (tokNameNamespace, name)

/-!
The `#line` rule of `CilkLexer` (cilklexer.py lines 145-146):

    ('^(' + _ws + r'#line)(\s+\d\n)',
     bygroups(Comment.Invisible.Begin, Comment.Invisible.End))

with `_ws = (?:\s|//.*?\n|/[*].*?[*]/)+` (line 47).  The alternatives
of `_ws` have disjoint first characters from each other and from
`#line`, and `\s` is disjoint from `\d`, so the regex is matched by
the deterministic scan below (`.` does not match a newline: the lexer
compiles its rules without DOTALL).
-/

/-- One `*/`-terminated block-comment tail: scan (lazily) for the
first `*/`, failing on a newline or end of input. -/
def findStarSlash : List Char → Option (List Char × List Char)
  | '*' :: '/' :: rest => some (['*', '/'], rest)
  | '\n' :: _ => none
  | c :: rest => (findStarSlash rest).map (fun p => (c :: p.1, p.2))
  | [] => none

/-- One item of `_ws`: a whitespace character, a `//...\n` line
comment, or a `/*...*/` block comment. -/
def wsItem : List Char → Option (List Char × List Char)
  | [] => none
  | c :: rest =>
      if pyWs c then some ([c], rest)
      else if c = '/' then
        match rest with
        | '/' :: r₂ =>
            let upto := r₂.takeWhile (· ≠ '\n')
            (match r₂.drop upto.length with
             | '\n' :: r₃ => some ('/' :: '/' :: upto ++ ['\n'], r₃)
             | _ => none)
        | '*' :: r₂ => (findStarSlash r₂).map (fun p => ('/' :: '*' :: p.1, p.2))
        | _ => none
      else none

/-- Greedy repetition of `wsItem`, with fuel bounding the number of
items (each item consumes at least one character, so the input length
is always enough fuel). -/
def wsMany : Nat → List Char → List Char × List Char
  | 0, s => ([], s)
  | Nat.succ n, s =>
      match wsItem s with
      | some p =>
          let q := wsMany n p.2
          (p.1 ++ q.1, q.2)
      | none => ([], s)

/-- The `#line` rule's regex, matched at a line start: group 1 is
`_ws#line` (one-or-more whitespace items then the literal `#line`),
group 2 is `\s+\d\n` — note the single `\d`.  Returns the two groups
on a match. -/
def hashLineMatch (s : List Char) : Option (List Char × List Char) :=
  let w := wsMany s.length s
  if w.1 = [] then none
  else if ['#', 'l', 'i', 'n', 'e'].isPrefixOf w.2 then
    let r₂ := w.2.drop 5
    let sp := r₂.takeWhile pyWs
    if sp = [] then none
    else
      match r₂.drop sp.length with
      | d :: '\n' :: _ =>
          if d.isDigit then some (w.1 ++ ['#', 'l', 'i', 'n', 'e'], sp ++ [d, '\n'])
          else none
      | _ => none
  else none

/-- The tokens the `#line` rule emits when it matches: `bygroups`
yields group 1 as `Comment.Invisible.Begin` and group 2 as
`Comment.Invisible.End`, in that order. -/
def hashLineTokens (s : List Char) : Option (List (TType × List Char)) :=
  (hashLineMatch s).map (fun g => [(tokCIBegin, g.1), (tokCIEnd, g.2)])

/-!
The LaTeX formatter `CilkBookFormatter.format_unencoded`
(cilkformatter.py lines 360-557), restricted to the token loop (the
`Verbatim` wrapper written before and after the loop adds no
per-token output).  The style dictionary `t2n` built by
`_create_stylesheet` and the pygments `STANDARD_TYPES` table are
parameters.
-/

/-- Options of the LaTeX formatter that the token loop reads. -/
structure CilkOpts where
  hidebydefault : Bool
  reindent : Bool
  texcomments : Bool
  mathescape : Bool
  cp : List Char
  t2n : TType → Option (List Char)
  stdTypes : TType → Option (List Char)

/-- Mutable state of the LaTeX formatter's token loop, plus the text
written so far. -/
structure CilkState where
  skiptoken : Bool
  initialindent : List Char
  findNextIndent : Bool
  newline : Bool
  wrotelines : Bool
  out : List Char
deriving DecidableEq

/-- State at loop entry (cilkformatter.py lines 393-409):
`skiptoken = hidebydefault`, `find_next_indent = reindent`. -/
def initCilkState (o : CilkOpts) : CilkState :=
  ⟨o.hidebydefault, [], o.reindent, false, false, []⟩

/-- Recursion of `_get_ttype_name` over the reversed category path
(the parent `List.dropLast` becomes a structural tail). -/
def getTtypeNameAux (std : TType → Option (List Char)) : List String → List Char
  | [] => (std []).getD []
  | x :: xs =>
      match std ((x :: xs).reverse) with
      | some f => f
      | none => getTtypeNameAux std xs ++ x.toList

/-- `_get_ttype_name` (cilkformatter.py lines 140-149): walk up the
category tree until `STANDARD_TYPES` has an entry, appending the
skipped path components. -/
def getTtypeName (std : TType → Option (List Char)) (t : TType) : List Char :=
  getTtypeNameAux std t.reverse

/-- Recursion of the `styles` loop over the reversed category path. -/
def stylesListAux (o : CilkOpts) : List String → List (List Char)
  | [] => []
  | x :: xs =>
      (match o.t2n ((x :: xs).reverse) with
       | some n => n
       | none => getTtypeName o.stdTypes ((x :: xs).reverse)) :: stylesListAux o xs

/-- The `styles` list of cilkformatter.py lines 498-505: one short
name per category from the token's own up to (excluding) the root,
from the `t2n` dictionary when present, else `_get_ttype_name`. -/
def stylesList (o : CilkOpts) (t : TType) : List (List Char) :=
  stylesListAux o t.reverse

/-- `styleval = '+'.join(reversed(styles))` (cilkformatter.py
line 506). -/
def stylevalOf (o : CilkOpts) (tt : TType) : List Char :=
  List.intercalate ['+'] (stylesList o tt).reverse

/-- Strip a literal prefix when present (the formatters' use of
`re.match('^(' + initialindent + ')', value)`: `initialindent` is a
run of `[ \t\f\v]` and so matches literally). -/
def stripLit (p v : List Char) : List Char :=
  if p.isPrefixOf v then v.drop p.length else v

/-- The `texcomments` transformation (cilkformatter.py lines
473-484): guess the comment-starting lexeme as the maximal run of the
first character, escape it, and leave the rest unescaped. -/
def texcommentsValue (cp : List Char) (value : List Char) : List Char :=
  match value with
  | [] => []
  | c :: rest =>
      let run := c :: rest.takeWhile (· = c)
      escapeTex cp run ++ value.drop run.length

/-- The alternating escape of the `mathescape` branch
(cilkformatter.py lines 485-493): parts outside `$...$` are escaped,
parts inside are not. -/
def altEscape (cp : List Char) : Bool → List (List Char) → List (List Char)
  | _, [] => []
  | inMath, p :: ps => (if inMath then p else escapeTex cp p) :: altEscape cp (!inMath) ps

/-- The `mathescape` transformation: split on `$`, escape the parts
outside math mode, rejoin with `$`. -/
def mathescapeValue (cp : List Char) (value : List Char) : List Char :=
  List.intercalate ['$'] (altEscape cp false (splitCh '$' value))

/-- The reindentation pre-pass of the LaTeX formatter
(cilkformatter.py lines 421-446), run when `reindent` is set: capture
the baseline from the first `Token.Text` token while
`find_next_indent` holds, emit any leading newlines, and strip the
baseline at a line start. -/
def cilkPre (s : CilkState) (tt : TType) (value : List Char) : CilkState × List Char :=
  let p₁ :=
    if s.findNextIndent then
      if tt = tokText then
        let run := value.takeWhile hws
        if run ≠ [] then
          ({ s with initialindent := run, findNextIndent := false, newline := false },
            value.drop run.length)
        else ({ s with findNextIndent := false, newline := false }, value)
      else ({ s with findNextIndent := false, newline := false }, value)
    else (s, value)
  let s₁ := p₁.1
  let v₁ := p₁.2
  let nl := v₁.takeWhile (· = '\n')
  if nl ≠ [] then
    ({ s₁ with out := s₁.out ++ nl, newline := true }, v₁.drop nl.length)
  else if s₁.newline then
    let v₂ := if tt = tokText then stripLit s₁.initialindent v₁ else v₁
    ({ s₁ with newline := false }, v₂)
  else (s₁, v₁)

/-- One output run `\<cp>{<styleval>}{<line>}` (cilkformatter.py
lines 511 and 516). -/
def texCmd (cp sv line : List Char) : List Char :=
  '\\' :: cp ++ '{' :: sv ++ '}' :: '{' :: line ++ ['}']

/-- The styled write loop (cilkformatter.py lines 508-517): split on
newlines, wrap each non-empty segment in the style command, emit one
newline per split point. -/
def cilkWriteStyled (cp sv : List Char) (s : CilkState) (value : List Char) : CilkState :=
  let spl := splitCh '\n' value
  let s₁ := spl.dropLast.foldl
    (fun st line =>
      let st₁ := if line ≠ [] then { st with out := st.out ++ texCmd cp sv line } else st
      { st₁ with newline := true, out := st₁.out ++ ['\n'], wrotelines := true }) s
  let last := spl.getLastD []
  if last ≠ [] then { s₁ with out := s₁.out ++ texCmd cp sv last, wrotelines := true }
  else s₁

/-- The unstyled write loop (cilkformatter.py lines 519-541): split
on newlines, strip the baseline at line starts when reindenting, and
emit segments bare. -/
def cilkWritePlain (reind : Bool) (s : CilkState) (value : List Char) : CilkState :=
  let spl := splitCh '\n' value
  let s₁ := spl.dropLast.foldl
    (fun st line =>
      let st₁ :=
        if line ≠ [] then
          let line₁ := if reind && st.newline then stripLit st.initialindent line else line
          { st with out := st.out ++ line₁ }
        else st
      { st₁ with newline := true, out := st₁.out ++ ['\n'], wrotelines := true }) s
  let last := spl.getLastD []
  if last ≠ [] then
    let line₁ := if reind && s₁.newline then stripLit s₁.initialindent last else last
    { s₁ with out := s₁.out ++ line₁, wrotelines := true, newline := false }
  else s₁

/-- Resolve the style value and dispatch to the styled or unstyled
write loop (cilkformatter.py lines 498-541). -/
def cilkDispatch (o : CilkOpts) (s : CilkState) (tt : TType) (v : List Char) : CilkState :=
  let sv := stylevalOf o tt
  if sv ≠ [] then cilkWriteStyled o.cp sv s v else cilkWritePlain o.reindent s v

/-- The body of the LaTeX formatter's loop for a non-marker,
non-suppressed token (cilkformatter.py lines 421-541). -/
def cilkEmit (o : CilkOpts) (s : CilkState) (tt : TType) (value : List Char) : CilkState :=
  let p := if o.reindent then cilkPre s tt value else (s, value)
  let s₁ := p.1
  let v := p.2
  if tokComment.isPrefixOf tt && ! tokPureTeX.isPrefixOf tt then
    if tokCommentInvisible.isPrefixOf tt then s₁
    else
      cilkDispatch o s₁ tt
        (if o.texcomments then texcommentsValue o.cp v
         else if o.mathescape then mathescapeValue o.cp v
         else escapeTex o.cp v)
  else if ! tokPureTeX.isPrefixOf tt then cilkDispatch o s₁ tt (escapeTex o.cp v)
  else cilkDispatch o s₁ tt v

/-- One iteration of the LaTeX formatter's token loop
(cilkformatter.py lines 411-541): `Comment.Invisible.End` clears the
suppression flag, `Comment.Invisible.Begin` sets it, a suppressed
token is dropped, anything else is emitted. -/
def cilkStep (o : CilkOpts) (s : CilkState) (tok : TType × List Char) : CilkState :=
  if tokCIEnd.isPrefixOf tok.1 then { s with skiptoken := false }
  else if tokCIBegin.isPrefixOf tok.1 then { s with skiptoken := true }
  else if s.skiptoken then s
  else cilkEmit o s tok.1 tok.2

/-- The LaTeX formatter's token loop over a whole token sequence. -/
def cilkRun (o : CilkOpts) (s : CilkState) (toks : List (TType × List Char)) : CilkState :=
  toks.foldl (cilkStep o) s

/-!
The RTF formatter `CHRtfFormatter.format_unencoded`
(chrtfformatter.py lines 122-255), restricted to the token loop (the
RTF header and colour table written before the loop add no per-token
output).  The style table is a parameter, as is the byte encoder of
`_escape_text` for characters above 128.
-/

/-- The style attributes `style_for_token` returns, with colours as
hex strings (they index the colour table through `colorIndex`). -/
structure RtfStyle where
  bgcolor : Option (List Char)
  color : Option (List Char)
  bold : Bool
  italic : Bool
  underline : Bool
  border : Option (List Char)

/-- Options and style environment of the RTF formatter's loop. -/
structure RtfOpts where
  hidebydefault : Bool
  reindent : Bool
  stylesToken : TType → Bool
  styleFor : TType → RtfStyle
  colorIndex : List Char → Nat
  encodeByte : Char → Option Nat

/-- Mutable state of the RTF formatter's token loop, plus the text
written so far. -/
structure RtfState where
  skiptoken : Bool
  initialindent : List Char
  findNextIndent : Bool
  newline : Bool
  out : List Char
deriving DecidableEq

/-- State at loop entry (chrtfformatter.py lines 147-151). -/
def initRtfState (o : RtfOpts) : RtfState :=
  ⟨o.hidebydefault, [], o.reindent, false, []⟩

/-- Decimal digits of a number, as printed by `%d`. -/
def decChars (n : Nat) : List Char := (Nat.repr n).toList

/-- Lowercase hexadecimal digits of a number, as printed by `%x`. -/
def hexChars (n : Nat) : List Char := Nat.toDigits 16 n

/-- `CHRtfFormatter._escape_text` (chrtfformatter.py lines 96-120):
empty text gives empty output; otherwise `_escape`, encode characters
above 128 as `\ud{\u<dec><ansi>}` runs, then turn every newline into
`\par` plus newline. -/
def rtfEscapeText (o : RtfOpts) (text : List Char) : List Char :=
  if text = [] then []
  else
    let buf := (rtfEscape text).foldr
      (fun c acc =>
        (if c.toNat > 128 then
          let b := (o.encodeByte c).getD 63
          let ansic := if b > 128 then '\\' :: '\'' :: hexChars b else [c]
          '\\' :: 'u' :: 'd' :: '{' :: '\\' :: 'u' :: decChars c.toNat ++ ansic ++ ['}']
        else [c]) ++ acc) []
    replaceChar '\n' ['\\', 'p', 'a', 'r', '\n'] buf

/-- Recursion of the style-resolution walk over the reversed
category path. -/
def rtfResolveAux (o : RtfOpts) : List String → TType
  | [] => []
  | x :: xs =>
      if o.stylesToken ((x :: xs).reverse) then (x :: xs).reverse else rtfResolveAux o xs

/-- The style-resolution walk of chrtfformatter.py line 209: climb to
the parent while the style table has no entry and a parent exists. -/
def rtfResolve (o : RtfOpts) (t : TType) : TType :=
  rtfResolveAux o t.reverse

/-- The control-word run opened before a styled token
(chrtfformatter.py lines 211-226). -/
def rtfStartFor (o : RtfOpts) (tt : TType) : List Char :=
  let st := o.styleFor (rtfResolve o tt)
  (match st.bgcolor with
   | some c => '\\' :: 'c' :: 'b' :: decChars (o.colorIndex c)
   | none => [])
  ++ (match st.color with
   | some c => '\\' :: 'c' :: 'f' :: decChars (o.colorIndex c)
   | none => [])
  ++ (if st.bold then ['\\', 'b'] else [])
  ++ (if st.italic then ['\\', 'i'] else [])
  ++ (if st.underline then ['\\', 'u', 'l'] else [])
  ++ (match st.border with
   | some c =>
      '\\' :: 'c' :: 'h' :: 'b' :: 'r' :: 'd' :: 'r' ::
      '\\' :: 'c' :: 'h' :: 'c' :: 'f' :: 'p' :: 'a' :: 't' :: decChars (o.colorIndex c)
   | none => [])

/-- The reindentation pre-pass of the RTF formatter
(chrtfformatter.py lines 166-195): as the LaTeX one, except leading
newlines are written through `_escape_text`. -/
def rtfPre (o : RtfOpts) (s : RtfState) (tt : TType) (value : List Char) :
    RtfState × List Char :=
  let p₁ :=
    if s.findNextIndent then
      if tt = tokText then
        let run := value.takeWhile hws
        if run ≠ [] then
          ({ s with initialindent := run, findNextIndent := false, newline := false },
            value.drop run.length)
        else ({ s with findNextIndent := false, newline := false }, value)
      else ({ s with findNextIndent := false, newline := false }, value)
    else (s, value)
  let s₁ := p₁.1
  let v₁ := p₁.2
  let nl := v₁.takeWhile (· = '\n')
  if nl ≠ [] then
    ({ s₁ with out := s₁.out ++ rtfEscapeText o nl, newline := true }, v₁.drop nl.length)
  else if s₁.newline then
    let v₂ := if tt = tokText then stripLit s₁.initialindent v₁ else v₁
    ({ s₁ with newline := false }, v₂)
  else (s₁, v₁)

/-- The body of the RTF formatter's loop for a non-marker,
non-suppressed token (chrtfformatter.py lines 166-253): reindent
pre-pass, drop `Comment.Invisible` tokens, reduce `Comment.PureTeX`
tokens to their newlines, then write the escaped, possibly
style-wrapped lines. -/
def rtfEmit (o : RtfOpts) (s : RtfState) (tt : TType) (value : List Char) : RtfState :=
  let p := if o.reindent then rtfPre o s tt value else (s, value)
  let s₁ := p.1
  let v := p.2
  if tokCommentInvisible.isPrefixOf tt then s₁
  else
    let pureTex := tokPureTeX.isPrefixOf tt
    let v₁ := if pureTex then v.filter (· = '\n') else v
    let s₂ := if pureTex then { s₁ with newline := true } else s₁
    let start := rtfStartFor o tt
    let s₃ := if start ≠ [] then { s₂ with out := s₂.out ++ '{' :: start ++ [' '] } else s₂
    let spl := splitCh '\n' v₁
    let s₄ := spl.dropLast.foldl
      (fun st line =>
        let st₁ :=
          if line ≠ [] then
            let line₁ := if o.reindent && st.newline then stripLit st.initialindent line else line
            { st with out := st.out ++ rtfEscapeText o line₁ }
          else st
        { st₁ with newline := true, out := st₁.out ++ rtfEscapeText o ['\n'] }) s₃
    let last := spl.getLastD []
    let s₅ :=
      if last ≠ [] then
        let line₁ := if o.reindent && s₄.newline then stripLit s₄.initialindent last else last
        { s₄ with out := s₄.out ++ rtfEscapeText o line₁, newline := false }
      else s₄
    if start ≠ [] then { s₅ with out := s₅.out ++ ['}'] } else s₅

/-- One iteration of the RTF formatter's token loop
(chrtfformatter.py lines 153-253). -/
def rtfStep (o : RtfOpts) (s : RtfState) (tok : TType × List Char) : RtfState :=
  if tokCIEnd.isPrefixOf tok.1 then { s with skiptoken := false }
  else if tokCIBegin.isPrefixOf tok.1 then { s with skiptoken := true }
  else if s.skiptoken then s
  else rtfEmit o s tok.1 tok.2

/-- The RTF formatter's token loop over a whole token sequence. -/
def rtfRun (o : RtfOpts) (s : RtfState) (toks : List (TType × List Char)) : RtfState :=
  toks.foldl (rtfStep o) s

/-- LaTeX formatter options with all flags off, the default command
prefix, and a trivial style environment (no styled categories). -/
def plainCilkOpts : CilkOpts :=
  { hidebydefault := false, reindent := false, texcomments := false, mathescape := false,
    cp := pyCp, t2n := fun _ => none, stdTypes := fun _ => some [] }

/-- `plainCilkOpts` with `reindent` enabled. -/
def reindentCilkOpts : CilkOpts :=
  { plainCilkOpts with reindent := true }

/-- A style with no attributes set. -/
def noStyle : RtfStyle := ⟨none, none, false, false, false, none⟩

/-- RTF formatter options with all flags off and a trivial style
environment. -/
def plainRtfOpts : RtfOpts :=
  { hidebydefault := false, reindent := false, stylesToken := fun _ => false,
    styleFor := fun _ => noStyle, colorIndex := fun _ => 0, encodeByte := fun _ => none }

/-- `plainRtfOpts` with `reindent` enabled. -/
def reindentRtfOpts : RtfOpts :=
  { plainRtfOpts with reindent := true }

/-- The token stream exercising reindentation across a region
boundary: a first visible line indented by two spaces, a
begin/end marker pair, then a line indented by six spaces. -/
def reindentStream : List (TType × List Char) :=
  [(tokText, ("  x;\n").toList),
   (tokCIBegin, ("///>>\n").toList),
   (tokCIEnd, ("///<<\n").toList),
   (tokText, ("      y;\n").toList)]

end CilkHilite

namespace CilkHilite

/-! Theorems. -/

theorem replaceChar_append (c : Char) (rep a b : List Char) :
    replaceChar c rep (a ++ b) = replaceChar c rep a ++ replaceChar c rep b := by
  induction a with
  | nil => rfl
  | cons x xs ih => simp [replaceChar, ih]

theorem escapeTex_append (cp a b : List Char) :
    escapeTex cp (a ++ b) = escapeTex cp a ++ escapeTex cp b := by
  simp [escapeTex, replaceChar_append]

theorem rtfEscape_append (a b : List Char) :
    rtfEscape (a ++ b) = rtfEscape a ++ rtfEscape b := by
  simp [rtfEscape, replaceChar_append]

theorem decodeTex_escapeTex_cons (c : Char) (hc : c ∈ texSpecials) (s : List Char) :
    decodeTex (escapeTex pyCp [c] ++ s) = c :: decodeTex s := by
  fin_cases hc <;> rfl

theorem decodeTex_escapeTex (s : List Char) (h : ∀ c ∈ s, c ∈ texSpecials) :
    decodeTex (escapeTex pyCp s) = s := by
  induction s with
  | nil => rfl
  | cons c t ih =>
      have hct : (c :: t) = [c] ++ t := rfl
      rw [hct, escapeTex_append, decodeTex_escapeTex_cons c (h c (by simp)) _,
        ih (fun x hx => h x (by simp [hx]))]
      exact hct

theorem decodeRtf_rtfEscape_cons (c : Char) (hc : c ∈ rtfSpecials) (s : List Char) :
    decodeRtf (rtfEscape [c] ++ s) = c :: decodeRtf s := by
  fin_cases hc <;> rfl

theorem decodeRtf_rtfEscape (s : List Char) (h : ∀ c ∈ s, c ∈ rtfSpecials) :
    decodeRtf (rtfEscape s) = s := by
  induction s with
  | nil => rfl
  | cons c t ih =>
      have hct : (c :: t) = [c] ++ t := rfl
      rw [hct, rtfEscape_append, decodeRtf_rtfEscape_cons c (h c (by simp)) _,
        ih (fun x hx => h x (by simp [hx]))]
      exact hct

/-- C6: each target syntax's escaping function, composed with that
syntax's literal-character unescaping, recovers the original text on
texts drawn from the handled character set, and is therefore injective
there.  `escape_tex` is taken at the source's default command prefix
`'PY'`; `rtfEscape` is `CHRtfFormatter._escape`. -/
theorem escape_roundtrip_injective (s₁ s₂ : List Char) :
    ((∀ c ∈ s₁, c ∈ texSpecials) → decodeTex (escapeTex pyCp s₁) = s₁)
    ∧ ((∀ c ∈ s₁, c ∈ texSpecials) → (∀ c ∈ s₂, c ∈ texSpecials) →
        escapeTex pyCp s₁ = escapeTex pyCp s₂ → s₁ = s₂)
    ∧ ((∀ c ∈ s₁, c ∈ rtfSpecials) → decodeRtf (rtfEscape s₁) = s₁)
    ∧ ((∀ c ∈ s₁, c ∈ rtfSpecials) → (∀ c ∈ s₂, c ∈ rtfSpecials) →
        rtfEscape s₁ = rtfEscape s₂ → s₁ = s₂) := by
  refine ⟨decodeTex_escapeTex s₁, fun h₁ h₂ heq => ?_,
    decodeRtf_rtfEscape s₁, fun h₁ h₂ heq => ?_⟩
  · rw [← decodeTex_escapeTex s₁ h₁, ← decodeTex_escapeTex s₂ h₂, heq]
  · rw [← decodeRtf_rtfEscape s₁ h₁, ← decodeRtf_rtfEscape s₂ h₂, heq]

/-- Witness for C6 at the concrete texts `"\{^"` and `"}\"` drawn from
the handled character sets. -/
theorem escape_roundtrip_injective_witness :
    decodeTex (escapeTex pyCp ['\\', '{', '^']) = ['\\', '{', '^']
    ∧ decodeRtf (rtfEscape ['}', '\\']) = ['}', '\\'] :=
  ⟨(escape_roundtrip_injective ['\\', '{', '^'] []).1 (by decide),
   (escape_roundtrip_injective ['}', '\\'] []).2.2.1 (by decide)⟩

/-- C10: `escape_tex` maps the control characters `U+0000`, `U+0001`
and `U+0002` to exactly the same output as backslash, `{` and `}`
respectively (they are the internal placeholders of the replace
chain), so injectivity fails outside the printable character set: two
distinct one-character texts share an escape. -/
theorem escape_tex_placeholder_collision :
    escapeTex pyCp ['\x00'] = escapeTex pyCp ['\\']
    ∧ escapeTex pyCp ['\x01'] = escapeTex pyCp ['{']
    ∧ escapeTex pyCp ['\x02'] = escapeTex pyCp ['}']
    ∧ (['\x00'] : List Char) ≠ ['\\'] := by
  refine ⟨rfl, rfl, rfl, by decide⟩

/-- C3: in every classification callback the emitted category is
decided by membership checks in order — custom types first
(`Keyword.Type`), then custom keywords (`Keyword.Custom`), then the
base grammar's default for that position (`Name.Variable`,
`Name.Function`, plain `Name`, or `Name.Namespace`), always on the
stripped name. -/
theorem classification_callback_order (types kws : List (List Char)) (name : List Char) :
    (pyStrip name ∈ types →
      variable_callback types kws name = (tokKeywordType, name)
      ∧ function_callback types kws name = (tokKeywordType, name)
      ∧ checkcustom_callback types kws name = (tokKeywordType, name)
      ∧ checknamespace_callback types kws name = (tokKeywordType, name))
    ∧ (pyStrip name ∉ types → pyStrip name ∈ kws →
      variable_callback types kws name = (tokKeywordCustom, name)
      ∧ function_callback types kws name = (tokKeywordCustom, name)
      ∧ checkcustom_callback types kws name = (tokKeywordCustom, name)
      ∧ checknamespace_callback types kws name = (tokKeywordCustom, name))
    ∧ (pyStrip name ∉ types → pyStrip name ∉ kws →
      variable_callback types kws name = (tokNameVariable, name)
      ∧ function_callback types kws name = (tokNameFunction, name)
      ∧ checkcustom_callback types kws name = (tokName, name)
      ∧ checknamespace_callback types kws name = (tokNameNamespace, name)) := by
  refine ⟨fun ht => ?_, fun ht hk => ?_, fun ht hk => ?_⟩
  · simp [variable_callback, function_callback, checkcustom_callback,
      checknamespace_callback, ht]
  · simp [variable_callback, function_callback, checkcustom_callback,
      checknamespace_callback, ht, hk]
  · simp [variable_callback, function_callback, checkcustom_callback,
      checknamespace_callback, ht, hk]

/-- Witness for C3 at concrete sets: `Foo` registered as a type wins
over its presence among keywords, `bar` is a custom keyword, `baz`
falls through to each default. -/
theorem classification_callback_order_witness :
    variable_callback [['F', 'o', 'o']] [['F', 'o', 'o'], ['b', 'a', 'r']]
        ['F', 'o', 'o'] = (tokKeywordType, ['F', 'o', 'o'])
    ∧ variable_callback [['F', 'o', 'o']] [['F', 'o', 'o'], ['b', 'a', 'r']]
        ['b', 'a', 'r'] = (tokKeywordCustom, ['b', 'a', 'r'])
    ∧ checkcustom_callback [['F', 'o', 'o']] [['F', 'o', 'o'], ['b', 'a', 'r']]
        ['b', 'a', 'z'] = (tokName, ['b', 'a', 'z']) :=
  ⟨((classification_callback_order [['F', 'o', 'o']] [['F', 'o', 'o'], ['b', 'a', 'r']]
      ['F', 'o', 'o']).1 (by decide)).1,
   ((classification_callback_order [['F', 'o', 'o']] [['F', 'o', 'o'], ['b', 'a', 'r']]
      ['b', 'a', 'r']).2.1 (by decide) (by decide)).1,
   ((classification_callback_order [['F', 'o', 'o']] [['F', 'o', 'o'], ['b', 'a', 'r']]
      ['b', 'a', 'z']).2.2 (by decide) (by decide)).2.2.1⟩

/-- C4 counterexample: the classifier state is *not* per-instance.
After one lexer registers `Foo` through a `Types:` comment, a second,
freshly constructed instance classifies `Foo` as `Keyword.Type`,
whereas an isolated instance (state as at class creation) would emit
`Name.Variable` — so tokenizing the first input does affect the
classification of identifiers in the second. -/
theorem classifier_state_shared_counterexample :
    (variable_callback
        (newInstance (registerNames cilkClassInit.1 (' ' :: ['F', 'o', 'o']),
          cilkClassInit.2)).1
        (newInstance (registerNames cilkClassInit.1 (' ' :: ['F', 'o', 'o']),
          cilkClassInit.2)).2
        ['F', 'o', 'o']).1 = tokKeywordType
    ∧ (variable_callback cilkClassInit.1 cilkClassInit.2 ['F', 'o', 'o']).1
        = tokNameVariable
    ∧ tokKeywordType ≠ tokNameVariable := by
  refine ⟨by decide, by decide, by decide⟩

/-- C4 as amended: the discovered-name lists are class attributes of
`CilkLexer`, shared by every instance; a name registered while
tokenizing one input persists into the shared state, and a later,
distinct instance (which aliases the same lists) classifies that name
as a custom type. -/
theorem classifier_state_shared_amended (st : ClassifierState)
    (listText name : List Char)
    (h : pyStrip name ∈ registerNames st.1 listText) :
    (variable_callback (newInstance (registerNames st.1 listText, st.2)).1
      (newInstance (registerNames st.1 listText, st.2)).2 name).1 = tokKeywordType := by
  simp [newInstance, variable_callback, h]

/-- Witness for the amended C4 at the concrete registration of
`Foo`. -/
theorem classifier_state_shared_amended_witness :
    (variable_callback
      (newInstance (registerNames cilkClassInit.1 ['F', 'o', 'o'], cilkClassInit.2)).1
      (newInstance (registerNames cilkClassInit.1 ['F', 'o', 'o'], cilkClassInit.2)).2
      ['F', 'o', 'o']).1 = tokKeywordType :=
  classifier_state_shared_amended cilkClassInit ['F', 'o', 'o'] ['F', 'o', 'o']
    (by decide)

theorem cilkRun_cons (o : CilkOpts) (s : CilkState) (t : TType × List Char)
    (ts : List (TType × List Char)) :
    cilkRun o s (t :: ts) = cilkRun o (cilkStep o s t) ts := rfl

theorem cilkRun_append (o : CilkOpts) (s : CilkState) (a b : List (TType × List Char)) :
    cilkRun o s (a ++ b) = cilkRun o (cilkRun o s a) b := by
  simp [cilkRun, List.foldl_append]

theorem rtfRun_cons (o : RtfOpts) (s : RtfState) (t : TType × List Char)
    (ts : List (TType × List Char)) :
    rtfRun o s (t :: ts) = rtfRun o (rtfStep o s t) ts := rfl

theorem rtfRun_append (o : RtfOpts) (s : RtfState) (a b : List (TType × List Char)) :
    rtfRun o s (a ++ b) = rtfRun o (rtfRun o s a) b := by
  simp [rtfRun, List.foldl_append]

theorem cilkStep_begin (o : CilkOpts) (s : CilkState) (v : List Char) :
    cilkStep o s (tokCIBegin, v) = { s with skiptoken := true } := by
  have h₁ : tokCIEnd.isPrefixOf tokCIBegin = false := by decide
  have h₂ : tokCIBegin.isPrefixOf tokCIBegin = true := by decide
  simp [cilkStep, h₁, h₂]

theorem cilkStep_end (o : CilkOpts) (s : CilkState) (v : List Char) :
    cilkStep o s (tokCIEnd, v) = { s with skiptoken := false } := by
  have h₁ : tokCIEnd.isPrefixOf tokCIEnd = true := by decide
  simp [cilkStep, h₁]

theorem rtfStep_begin (o : RtfOpts) (s : RtfState) (v : List Char) :
    rtfStep o s (tokCIBegin, v) = { s with skiptoken := true } := by
  have h₁ : tokCIEnd.isPrefixOf tokCIBegin = false := by decide
  have h₂ : tokCIBegin.isPrefixOf tokCIBegin = true := by decide
  simp [rtfStep, h₁, h₂]

theorem rtfStep_end (o : RtfOpts) (s : RtfState) (v : List Char) :
    rtfStep o s (tokCIEnd, v) = { s with skiptoken := false } := by
  have h₁ : tokCIEnd.isPrefixOf tokCIEnd = true := by decide
  simp [rtfStep, h₁]

theorem cilkRun_skip (o : CilkOpts) (mid : List (TType × List Char))
    (h : ∀ t ∈ mid, tokCIEnd.isPrefixOf t.1 = false) (s : CilkState)
    (hs : s.skiptoken = true) : cilkRun o s mid = s := by
  induction mid generalizing s with
  | nil => rfl
  | cons t ts ih =>
      have hend := h t (by simp)
      have hstep : cilkStep o s t = s := by
        by_cases hb : tokCIBegin.isPrefixOf t.1
        · have heq : { s with skiptoken := true } = s := by
            cases s
            simp_all
          simp [cilkStep, hend, hb, heq]
        · simp [cilkStep, hend, hb, hs]
      rw [cilkRun_cons, hstep]
      exact ih (fun x hx => h x (by simp [hx])) s hs

theorem rtfRun_skip (o : RtfOpts) (mid : List (TType × List Char))
    (h : ∀ t ∈ mid, tokCIEnd.isPrefixOf t.1 = false) (s : RtfState)
    (hs : s.skiptoken = true) : rtfRun o s mid = s := by
  induction mid generalizing s with
  | nil => rfl
  | cons t ts ih =>
      have hend := h t (by simp)
      have hstep : rtfStep o s t = s := by
        by_cases hb : tokCIBegin.isPrefixOf t.1
        · have heq : { s with skiptoken := true } = s := by
            cases s
            simp_all
          simp [rtfStep, hend, hb, heq]
        · simp [rtfStep, hend, hb, hs]
      rw [rtfRun_cons, hstep]
      exact ih (fun x hx => h x (by simp [hx])) s hs

/-- C1: with hide-by-default off, every token lying strictly between
a `Comment.Invisible.Begin` token and the next `Comment.Invisible.End`
token contributes no characters to either formatter's output (the
output equals that of the stream without them), and the Begin/End
marker tokens themselves never write anything. -/
theorem region_suppression (o : CilkOpts) (ro : RtfOpts)
    (ho : o.hidebydefault = false) (hro : ro.hidebydefault = false)
    (pre mid post : List (TType × List Char)) (v₁ v₂ : List Char)
    (hmid : ∀ t ∈ mid, tokCIEnd.isPrefixOf t.1 = false) :
    ((cilkRun o (initCilkState o)
        (pre ++ (tokCIBegin, v₁) :: mid ++ (tokCIEnd, v₂) :: post)).out
      = (cilkRun o (initCilkState o)
        (pre ++ (tokCIBegin, v₁) :: (tokCIEnd, v₂) :: post)).out)
    ∧ (∀ (s : CilkState) (v : List Char),
        (cilkStep o s (tokCIBegin, v)).out = s.out
        ∧ (cilkStep o s (tokCIEnd, v)).out = s.out)
    ∧ ((rtfRun ro (initRtfState ro)
        (pre ++ (tokCIBegin, v₁) :: mid ++ (tokCIEnd, v₂) :: post)).out
      = (rtfRun ro (initRtfState ro)
        (pre ++ (tokCIBegin, v₁) :: (tokCIEnd, v₂) :: post)).out)
    ∧ (∀ (s : RtfState) (v : List Char),
        (rtfStep ro s (tokCIBegin, v)).out = s.out
        ∧ (rtfStep ro s (tokCIEnd, v)).out = s.out) := by
  have hkeyC : ∀ s : CilkState,
      cilkRun o s ((pre ++ (tokCIBegin, v₁) :: mid) ++ (tokCIEnd, v₂) :: post)
        = cilkRun o s (pre ++ (tokCIBegin, v₁) :: (tokCIEnd, v₂) :: post) := by
    intro s
    calc cilkRun o s ((pre ++ (tokCIBegin, v₁) :: mid) ++ (tokCIEnd, v₂) :: post)
        = cilkRun o (cilkRun o s (pre ++ (tokCIBegin, v₁) :: mid))
            ((tokCIEnd, v₂) :: post) :=
          cilkRun_append o s (pre ++ (tokCIBegin, v₁) :: mid) ((tokCIEnd, v₂) :: post)
      _ = cilkRun o (cilkRun o (cilkRun o s pre) ((tokCIBegin, v₁) :: mid))
            ((tokCIEnd, v₂) :: post) := by
          rw [cilkRun_append o s pre ((tokCIBegin, v₁) :: mid)]
      _ = cilkRun o { cilkRun o s pre with skiptoken := true } ((tokCIEnd, v₂) :: post) := by
          rw [cilkRun_cons o (cilkRun o s pre) (tokCIBegin, v₁) mid,
            cilkStep_begin o (cilkRun o s pre) v₁,
            cilkRun_skip o mid hmid { cilkRun o s pre with skiptoken := true } rfl]
      _ = cilkRun o (cilkStep o (cilkRun o s pre) (tokCIBegin, v₁))
            ((tokCIEnd, v₂) :: post) := by
          rw [cilkStep_begin o (cilkRun o s pre) v₁]
      _ = cilkRun o (cilkRun o s pre) ((tokCIBegin, v₁) :: (tokCIEnd, v₂) :: post) :=
          (cilkRun_cons o (cilkRun o s pre) (tokCIBegin, v₁) ((tokCIEnd, v₂) :: post)).symm
      _ = cilkRun o s (pre ++ (tokCIBegin, v₁) :: (tokCIEnd, v₂) :: post) :=
          (cilkRun_append o s pre ((tokCIBegin, v₁) :: (tokCIEnd, v₂) :: post)).symm
  have hkeyR : ∀ s : RtfState,
      rtfRun ro s ((pre ++ (tokCIBegin, v₁) :: mid) ++ (tokCIEnd, v₂) :: post)
        = rtfRun ro s (pre ++ (tokCIBegin, v₁) :: (tokCIEnd, v₂) :: post) := by
    intro s
    calc rtfRun ro s ((pre ++ (tokCIBegin, v₁) :: mid) ++ (tokCIEnd, v₂) :: post)
        = rtfRun ro (rtfRun ro s (pre ++ (tokCIBegin, v₁) :: mid))
            ((tokCIEnd, v₂) :: post) :=
          rtfRun_append ro s (pre ++ (tokCIBegin, v₁) :: mid) ((tokCIEnd, v₂) :: post)
      _ = rtfRun ro (rtfRun ro (rtfRun ro s pre) ((tokCIBegin, v₁) :: mid))
            ((tokCIEnd, v₂) :: post) := by
          rw [rtfRun_append ro s pre ((tokCIBegin, v₁) :: mid)]
      _ = rtfRun ro { rtfRun ro s pre with skiptoken := true } ((tokCIEnd, v₂) :: post) := by
          rw [rtfRun_cons ro (rtfRun ro s pre) (tokCIBegin, v₁) mid,
            rtfStep_begin ro (rtfRun ro s pre) v₁,
            rtfRun_skip ro mid hmid { rtfRun ro s pre with skiptoken := true } rfl]
      _ = rtfRun ro (rtfStep ro (rtfRun ro s pre) (tokCIBegin, v₁))
            ((tokCIEnd, v₂) :: post) := by
          rw [rtfStep_begin ro (rtfRun ro s pre) v₁]
      _ = rtfRun ro (rtfRun ro s pre) ((tokCIBegin, v₁) :: (tokCIEnd, v₂) :: post) :=
          (rtfRun_cons ro (rtfRun ro s pre) (tokCIBegin, v₁) ((tokCIEnd, v₂) :: post)).symm
      _ = rtfRun ro s (pre ++ (tokCIBegin, v₁) :: (tokCIEnd, v₂) :: post) :=
          (rtfRun_append ro s pre ((tokCIBegin, v₁) :: (tokCIEnd, v₂) :: post)).symm
  refine ⟨congrArg CilkState.out (hkeyC (initCilkState o)),
    fun s v => ⟨by rw [cilkStep_begin], by rw [cilkStep_end]⟩,
    congrArg RtfState.out (hkeyR (initRtfState ro)),
    fun s v => ⟨by rw [rtfStep_begin], by rw [rtfStep_end]⟩⟩

/-- Witness for C1: one suppressed `Text` token between the markers,
against the stream with the markers adjacent, plus the no-output facts
for the markers at the initial states. -/
theorem region_suppression_witness :
    ((cilkRun plainCilkOpts (initCilkState plainCilkOpts)
        ([] ++ (tokCIBegin, []) :: [(tokText, ['a'])] ++ (tokCIEnd, []) :: [])).out
      = (cilkRun plainCilkOpts (initCilkState plainCilkOpts)
        ([] ++ (tokCIBegin, []) :: (tokCIEnd, []) :: [])).out)
    ∧ (cilkStep plainCilkOpts (initCilkState plainCilkOpts) (tokCIBegin, ['m'])).out
        = (initCilkState plainCilkOpts).out
    ∧ ((rtfRun plainRtfOpts (initRtfState plainRtfOpts)
        ([] ++ (tokCIBegin, []) :: [(tokText, ['a'])] ++ (tokCIEnd, []) :: [])).out
      = (rtfRun plainRtfOpts (initRtfState plainRtfOpts)
        ([] ++ (tokCIBegin, []) :: (tokCIEnd, []) :: [])).out)
    ∧ (rtfStep plainRtfOpts (initRtfState plainRtfOpts) (tokCIEnd, ['m'])).out
        = (initRtfState plainRtfOpts).out :=
  ⟨(region_suppression plainCilkOpts plainRtfOpts rfl rfl
      [] [(tokText, ['a'])] [] [] [] (by decide)).1,
   ((region_suppression plainCilkOpts plainRtfOpts rfl rfl
      [] [(tokText, ['a'])] [] [] [] (by decide)).2.1
      (initCilkState plainCilkOpts) ['m']).1,
   (region_suppression plainCilkOpts plainRtfOpts rfl rfl
      [] [(tokText, ['a'])] [] [] [] (by decide)).2.2.1,
   ((region_suppression plainCilkOpts plainRtfOpts rfl rfl
      [] [(tokText, ['a'])] [] [] [] (by decide)).2.2.2
      (initRtfState plainRtfOpts) ['m']).2⟩

/-- C2 counterexample: a non-suppressed `Comment.Invisible` token
whose text contains one newline produces *no* output in either
formatter — the newline is not re-emitted as a blank line, so the
stated line-count preservation fails for such tokens. -/
theorem invisible_newline_counterexample :
    (cilkRun plainCilkOpts (initCilkState plainCilkOpts)
        [(tokCommentInvisible, ['/', '/', '/', 'x', '\n'])]).out = []
    ∧ (rtfRun plainRtfOpts (initRtfState plainRtfOpts)
        [(tokCommentInvisible, ['/', '/', '/', 'x', '\n'])]).out = []
    ∧ ['/', '/', '/', 'x', '\n'].count '\n' = 1 := by
  refine ⟨by decide, by decide, by decide⟩

/-- C2 as amended: a non-suppressed token under `Comment.Invisible`
(but not a Begin/End marker) is dropped in its entirety by both
formatters, newline characters included, leaving the state untouched
(with reindentation off); line-count preservation is instead achieved
by the lexer placing the trailing newline of a `///` comment in the
`Comment.PureTeX` payload token. -/
theorem invisible_token_fully_dropped (o : CilkOpts) (ro : RtfOpts)
    (s : CilkState) (rs : RtfState) (ts : List String) (v : List Char)
    (hre : o.reindent = false) (hrre : ro.reindent = false)
    (hb : tokCIBegin.isPrefixOf ("Comment" :: "Invisible" :: ts) = false)
    (he : tokCIEnd.isPrefixOf ("Comment" :: "Invisible" :: ts) = false)
    (hs : s.skiptoken = false) (hrs : rs.skiptoken = false) :
    cilkStep o s ("Comment" :: "Invisible" :: ts, v) = s
    ∧ rtfStep ro rs ("Comment" :: "Invisible" :: ts, v) = rs := by
  have hne : ("PureTeX" == "Invisible") = false := by decide
  have hc : tokComment.isPrefixOf ("Comment" :: "Invisible" :: ts) = true := by
    simp [tokComment, List.isPrefixOf]
  have hp : tokPureTeX.isPrefixOf ("Comment" :: "Invisible" :: ts) = false := by
    simp [tokPureTeX, List.isPrefixOf, hne]
  have hi : tokCommentInvisible.isPrefixOf ("Comment" :: "Invisible" :: ts) = true := by
    simp [tokCommentInvisible, List.isPrefixOf]
  constructor
  · simp [cilkStep, hb, he, hs, cilkEmit, hre, hc, hp, hi]
  · simp [rtfStep, hb, he, hrs, rtfEmit, hrre, hi]

/-- Witness for the amended C2 at the `Comment.Invisible` category
itself. -/
theorem invisible_token_fully_dropped_witness :
    cilkStep plainCilkOpts (initCilkState plainCilkOpts)
      ("Comment" :: "Invisible" :: [], ['z', '\n']) = initCilkState plainCilkOpts
    ∧ rtfStep plainRtfOpts (initRtfState plainRtfOpts)
      ("Comment" :: "Invisible" :: [], ['z', '\n']) = initRtfState plainRtfOpts :=
  invisible_token_fully_dropped plainCilkOpts plainRtfOpts
    (initCilkState plainCilkOpts) (initRtfState plainRtfOpts) [] ['z', '\n']
    rfl rfl (by decide) (by decide) rfl rfl

/-- C5 (the code's actual behaviour at the claim's failing input):
with reindentation on, the baseline is captured once, from the first
`Text` token of the whole stream, and is *not* re-captured when
suppression switches off at the `End` marker — the second visible
region's line `      y;` is stripped of the stale two-space baseline
only, leaving `    y;`, where the claim (and the formatters' own
docstrings) require a fresh six-space baseline and output `y;`. -/
theorem reindent_baseline_not_recaptured :
    (cilkRun reindentCilkOpts (initCilkState reindentCilkOpts) reindentStream).out
      = ("x;\n    y;\n").toList
    ∧ (rtfRun reindentRtfOpts (initRtfState reindentRtfOpts) reindentStream).out
      = ("x;\\par\n    y;\\par\n").toList := by
  refine ⟨by decide, by decide⟩

/-- C7: the suppression flag after marker tokens depends only on the
last marker seen — `Begin, Begin, End` leaves the same flag as
`Begin, End`; an `End` while visible and a `Begin` while suppressed
change nothing at all (and, the step functions being total, no error
is ever raised). -/
theorem marker_toggle_idempotent (o : CilkOpts) (ro : RtfOpts)
    (s : CilkState) (rs : RtfState) (v₁ v₂ v₃ w₁ w₂ : List Char) :
    ((cilkRun o s [(tokCIBegin, v₁), (tokCIBegin, v₂), (tokCIEnd, v₃)]).skiptoken
      = (cilkRun o s [(tokCIBegin, w₁), (tokCIEnd, w₂)]).skiptoken)
    ∧ (s.skiptoken = false → cilkStep o s (tokCIEnd, v₁) = s)
    ∧ (s.skiptoken = true → cilkStep o s (tokCIBegin, v₁) = s)
    ∧ ((rtfRun ro rs [(tokCIBegin, v₁), (tokCIBegin, v₂), (tokCIEnd, v₃)]).skiptoken
      = (rtfRun ro rs [(tokCIBegin, w₁), (tokCIEnd, w₂)]).skiptoken)
    ∧ (rs.skiptoken = false → rtfStep ro rs (tokCIEnd, v₁) = rs)
    ∧ (rs.skiptoken = true → rtfStep ro rs (tokCIBegin, v₁) = rs) := by
  refine ⟨?_, fun h => ?_, fun h => ?_, ?_, fun h => ?_, fun h => ?_⟩
  · rw [cilkRun_cons, cilkRun_cons, cilkRun_cons, cilkRun_cons, cilkRun_cons,
      cilkStep_begin, cilkStep_begin, cilkStep_end, cilkStep_begin, cilkStep_end]
  · rw [cilkStep_end]
    cases s
    simp_all
  · rw [cilkStep_begin]
    cases s
    simp_all
  · rw [rtfRun_cons, rtfRun_cons, rtfRun_cons, rtfRun_cons, rtfRun_cons,
      rtfStep_begin, rtfStep_begin, rtfStep_end, rtfStep_begin, rtfStep_end]
  · rw [rtfStep_end]
    cases rs
    simp_all
  · rw [rtfStep_begin]
    cases rs
    simp_all

/-- Witness for C7 at the initial states and empty marker texts. -/
theorem marker_toggle_idempotent_witness :
    ((cilkRun plainCilkOpts (initCilkState plainCilkOpts)
        [(tokCIBegin, []), (tokCIBegin, []), (tokCIEnd, [])]).skiptoken
      = (cilkRun plainCilkOpts (initCilkState plainCilkOpts)
        [(tokCIBegin, []), (tokCIEnd, [])]).skiptoken)
    ∧ cilkStep plainCilkOpts (initCilkState plainCilkOpts) (tokCIEnd, [])
        = initCilkState plainCilkOpts
    ∧ rtfStep plainRtfOpts (initRtfState plainRtfOpts) (tokCIEnd, [])
        = initRtfState plainRtfOpts :=
  ⟨(marker_toggle_idempotent plainCilkOpts plainRtfOpts
      (initCilkState plainCilkOpts) (initRtfState plainRtfOpts) [] [] [] [] []).1,
   (marker_toggle_idempotent plainCilkOpts plainRtfOpts
      (initCilkState plainCilkOpts) (initRtfState plainRtfOpts) [] [] [] [] []).2.1 rfl,
   (marker_toggle_idempotent plainCilkOpts plainRtfOpts
      (initCilkState plainCilkOpts) (initRtfState plainRtfOpts) [] [] [] [] []).2.2.2.2.1 rfl⟩

/-- C8 (the code's actual behaviour): the `#line` rule matches only a
*single-digit* line number — ` #line 7` is tokenized as the invisible
Begin/End pair and contributes no output characters, but ` #line 10`
does not match the rule at all, so the directive is not rendered
invisible for two-digit line numbers, contradicting the claim's "for
every natural number N". -/
theorem line_directive_single_digit :
    hashLineMatch ((" #line 7\n").toList)
      = some ((" #line").toList, (" 7\n").toList)
    ∧ hashLineMatch ((" #line 10\n").toList) = none
    ∧ (cilkRun plainCilkOpts (initCilkState plainCilkOpts)
        [(tokCIBegin, (" #line").toList), (tokCIEnd, (" 7\n").toList)]).out = []
    ∧ (rtfRun plainRtfOpts (initRtfState plainRtfOpts)
        [(tokCIBegin, (" #line").toList), (tokCIEnd, (" 7\n").toList)]).out = [] := by
  refine ⟨by decide, by decide, by decide, by decide⟩

/-- C9: a matched `#line` directive is tokenized as a
`Comment.Invisible.Begin` token immediately followed by a
`Comment.Invisible.End` token, and after either formatter processes
that pair the suppression flag is off, whatever it was before — a
`#line` directive terminates any active suppression. -/
theorem line_directive_unhides (o : CilkOpts) (ro : RtfOpts)
    (s : CilkState) (rs : RtfState) (src g₁ g₂ : List Char)
    (h : hashLineMatch src = some (g₁, g₂)) :
    hashLineTokens src = some [(tokCIBegin, g₁), (tokCIEnd, g₂)]
    ∧ (cilkRun o s [(tokCIBegin, g₁), (tokCIEnd, g₂)]).skiptoken = false
    ∧ (rtfRun ro rs [(tokCIBegin, g₁), (tokCIEnd, g₂)]).skiptoken = false := by
  refine ⟨by simp [hashLineTokens, h], ?_, ?_⟩
  · rw [cilkRun_cons, cilkRun_cons, cilkStep_begin, cilkStep_end]
    rfl
  · rw [rtfRun_cons, rtfRun_cons, rtfStep_begin, rtfStep_end]
    rfl

/-- Witness for C9 at the concrete directive ` #line 7`, starting
from suppressed states (hide-by-default on). -/
theorem line_directive_unhides_witness :
    hashLineTokens ((" #line 7\n").toList)
      = some [(tokCIBegin, (" #line").toList), (tokCIEnd, (" 7\n").toList)]
    ∧ (cilkRun plainCilkOpts ⟨true, [], false, false, false, []⟩
        [(tokCIBegin, (" #line").toList), (tokCIEnd, (" 7\n").toList)]).skiptoken = false
    ∧ (rtfRun plainRtfOpts ⟨true, [], false, false, []⟩
        [(tokCIBegin, (" #line").toList), (tokCIEnd, (" 7\n").toList)]).skiptoken = false :=
  line_directive_unhides plainCilkOpts plainRtfOpts
    ⟨true, [], false, false, false, []⟩ ⟨true, [], false, false, []⟩
    ((" #line 7\n").toList) ((" #line").toList) ((" 7\n").toList) (by decide)

end CilkHilite
